import Mathlib

set_option maxHeartbeats 1000000

-- Shallow embedding of the data-cleaning core of the repository:
-- src/src/data_cleaning.py (DataPreProcessStrategy, DataDivideStrategy, DataCleaning)
-- and src/steps/clean_data.py (clean_df), together with the pandas / sklearn
-- operations those functions call.  Numeric cell values are modelled exactly as
-- rationals; missing values (NaN / None) are an explicit constructor; Python
-- exceptions are modelled with Except, and the logging calls are modelled by a
-- list of log messages returned next to each result.

/-- Scalar cell of a pandas column: a numeric value (modelled exactly as a
rational), a string, or a missing value (NaN / None). -/
inductive Value where
  | num (q : ℚ)
  | str (s : String)
  | null
deriving DecidableEq

/-- Column dtype as pandas tracks it: numeric (integer or floating point) or
object (text). -/
inductive Dtype where
  | numeric
  | object
deriving DecidableEq

/-- One named pandas column: its name, its dtype, and its cell values. -/
structure Column where
  name : String
  dtype : Dtype
  values : List Value
deriving DecidableEq

/-- A pandas DataFrame: the length of its row index (`nr`) and its columns.
In a well-formed frame every column has `nr` values; the row count is kept
separately because a frame with zero columns still has rows. -/
structure Table where
  nr : Nat
  cols : List Column
deriving DecidableEq

/-- A pandas Series extracted from a frame: a name and its values. -/
structure Series where
  name : String
  values : List Value
deriving DecidableEq

def Table.names (t : Table) : List String := t.cols.map Column.name

def Table.hasCol (t : Table) (nm : String) : Bool := t.names.contains nm

/-- Column lookup, `data[nm]` on the frame: the first column named `nm`. -/
def Table.get? (t : Table) (nm : String) : Option Column :=
  t.cols.find? (fun c => c.name == nm)

/-- Remove every column whose name is listed (the success path of
`DataFrame.drop(labels, axis=1)`); the row index is untouched. -/
def dropCols (t : Table) (labels : List String) : Table :=
  ⟨t.nr, t.cols.filter (fun c => !(labels.contains c.name))⟩

/-- pandas `DataFrame.drop(labels, axis=1)`: raises a KeyError naming the absent
labels when any of them is missing, otherwise removes the named columns. -/
def Table.drop (t : Table) (labels : List String) : Except String Table :=
  match labels.filter (fun nm => !(t.hasCol nm)) with
  | [] => .ok (dropCols t labels)
  | missing => .error (String.intercalate ", " missing ++ " not found in axis")

def Value.toNum? : Value → Option ℚ
  | .num q => some q
  | _ => Option.none

/-- `fillna` on one cell: a missing value becomes `r`, others are unchanged. -/
def fillValue (r : Value) : Value → Value
  | .null => r
  | v => v

/-- Median of a sorted nonempty list: the middle element for odd length, the
mean of the two middle elements for even length (pandas convention). -/
def medianOfSorted (l : List ℚ) : ℚ :=
  if l.length % 2 = 1 then l.getD (l.length / 2) 0
  else (l.getD (l.length / 2 - 1) 0 + l.getD (l.length / 2) 0) / 2

/-- pandas `Series.median()`: the median of the non-null values; NaN (modelled
as `Option.none`) when every value is null. -/
def seriesMedian (vals : List Value) : Option ℚ :=
  let nums := (vals.filterMap Value.toNum?).insertionSort (· ≤ ·)
  if nums.isEmpty then Option.none else some (medianOfSorted nums)

/-- Effect of `data[nm].fillna(data[nm].median(), inplace=True)` on one column:
only the column named `nm` changes; when its median is NaN (all values null)
the column is left unchanged. -/
def fillMedCol (nm : String) (c : Column) : Column :=
  if c.name == nm then
    match seriesMedian c.values with
    | Option.none => c
    | some m => { c with values := c.values.map (fillValue (Value.num m)) }
  else c

/-- Effect of `data[nm].fillna(s, inplace=True)` on one column. -/
def fillStrCol (nm s : String) (c : Column) : Column :=
  if c.name == nm then { c with values := c.values.map (fillValue (Value.str s)) }
  else c

/-- `data[nm].fillna(data[nm].median(), inplace=True)` at frame level: KeyError
when the column is absent, otherwise the median fill applied to that column. -/
def Table.fillnaMedian (t : Table) (nm : String) : Except String Table :=
  match t.get? nm with
  | Option.none => .error ("KeyError: " ++ nm)
  | some _ => .ok ⟨t.nr, t.cols.map (fillMedCol nm)⟩

/-- `data[nm].fillna(s, inplace=True)` at frame level. -/
def Table.fillnaStr (t : Table) (nm s : String) : Except String Table :=
  match t.get? nm with
  | Option.none => .error ("KeyError: " ++ nm)
  | some _ => .ok ⟨t.nr, t.cols.map (fillStrCol nm s)⟩

/-- `DataFrame.select_dtypes(include=np.number)`: keep exactly the
numeric-dtype columns. -/
def Table.selectNumeric (t : Table) : Table :=
  ⟨t.nr, t.cols.filter (fun c => c.dtype == Dtype.numeric)⟩

/-- The five timestamp columns dropped first by DataPreProcessStrategy. -/
def timestampCols : List String :=
  ["order_approved_at", "order_delivered_carrier_date",
   "order_delivered_customer_date", "order_estimated_delivery_date",
   "order_purchase_timestamp"]

/-- The two columns dropped after the numeric filter (the first name is
misspelled exactly as in the source). -/
def colsToDrop : List String := ["custopmer_zip_code_prefix", "order_item_id"]

/-- The four columns that receive median imputation. -/
def productCols : List String :=
  ["product_weight_g", "product_length_cm", "product_height_cm",
   "product_width_cm"]

/-- Body of `DataPreProcessStrategy.handle_data` inside its try block: drop the
five timestamp columns, median-impute the four product columns, fill
`review_comment_message` with "No Review", keep numeric columns, drop the two
remaining named columns. -/
def preprocessBody (t : Table) : Except String Table :=
  match t.drop timestampCols with
  | .error e => .error e
  | .ok d1 =>
  match d1.fillnaMedian "product_weight_g" with
  | .error e => .error e
  | .ok d2 =>
  match d2.fillnaMedian "product_length_cm" with
  | .error e => .error e
  | .ok d3 =>
  match d3.fillnaMedian "product_height_cm" with
  | .error e => .error e
  | .ok d4 =>
  match d4.fillnaMedian "product_width_cm" with
  | .error e => .error e
  | .ok d5 =>
  match d5.fillnaStr "review_comment_message" "No Review" with
  | .error e => .error e
  | .ok d6 => (d6.selectNumeric).drop colsToDrop

/-- The five per-column imputations of the preprocessing body, applied to one
column (each step only touches the column with the matching name). -/
def prepFill (c : Column) : Column :=
  fillStrCol "review_comment_message" "No Review"
    (fillMedCol "product_width_cm"
      (fillMedCol "product_height_cm"
        (fillMedCol "product_length_cm"
          (fillMedCol "product_weight_g" c))))

/-- The try-block body applied to a Python-level argument, which may be a
DataFrame or None (None.drop raises an AttributeError). -/
def preprocessBodyPy : Option Table → Except String Table
  | Option.none => .error "AttributeError: NoneType object has no attribute drop"
  | some t => preprocessBody t

/-- `DataPreProcessStrategy.handle_data`: runs the body; on an exception it
logs the error and falls off the function, returning Python None (no re-raise).
The second component collects the log messages of the call. -/
def DataPreProcessStrategy.handle_data (data : Option Table) :
    Option Table × List String :=
  match preprocessBodyPy data with
  | .ok t => (some t, [])
  | .error e => (Option.none, ["Error in preprocessing data: " ++ e])

/-- One step of a 64-bit linear congruential generator.  Together with
`shuffleAux` this models `numpy.random.RandomState(seed).permutation(n)` as
used by sklearn's `train_test_split`: a deterministic, seeded shuffle of the
row indices.  The exact MT19937 stream of the library is replaced by this
PRNG; every property proved below depends only on the result being a
permutation of the indices that is a function of the seed alone. -/
def lcgNext (s : Nat) : Nat :=
  (6364136223846793005 * s + 1442695040888963407) % 18446744073709551616

/-- Seed-driven shuffle: at each step pick one remaining element (position
`state % remaining`) and advance the PRNG state.  `fuel` bounds the recursion;
`fuel = length` consumes the whole list since each step removes one element. -/
def shuffleAux : Nat → Nat → List Nat → List Nat
  | 0, _, _ => []
  | _, _, [] => []
  | fuel + 1, s, a :: rest =>
    (a :: rest).getD (s % (a :: rest).length) 0 ::
      shuffleAux fuel (lcgNext s) ((a :: rest).eraseIdx (s % (a :: rest).length))

def shuffleList (s : Nat) (l : List Nat) : List Nat := shuffleAux l.length s l

/-- The seeded permutation of the row indices `0, ..., n-1`. -/
def permutation (seed n : Nat) : List Nat := shuffleList seed (List.range n)

/-- sklearn `_validate_shuffle_split` with `test_size=0.2` computes
`n_test = ceil(test_size * n_samples)`; at these magnitudes the double
arithmetic is exact, so this is exactly the ceiling of n / 5. -/
def nTestOf (n : Nat) : Nat := (n + 4) / 5

/-- Index lists (train, test) drawn from the seeded permutation: sklearn's
ShuffleSplit takes `permutation[:n_test]` as the test indices and the next
`n_train` entries as the train indices. -/
def splitIndices (seed n : Nat) : List Nat × List Nat :=
  (((permutation seed n).drop (nTestOf n)).take (n - nTestOf n),
   (permutation seed n).take (nTestOf n))

/-- Row selection `c.iloc[idx]` on one column. -/
def Column.takeRows (c : Column) (idx : List Nat) : Column :=
  { c with values := idx.map (fun i => c.values.getD i Value.null) }

/-- Row selection `X.iloc[idx]` on a frame: every column is sliced by the same
index list and the new row count is the number of selected indices. -/
def Table.takeRows (t : Table) (idx : List Nat) : Table :=
  ⟨idx.length, t.cols.map (fun c => c.takeRows idx)⟩

/-- Row selection `y.iloc[idx]` on a series. -/
def Series.takeRows (s : Series) (idx : List Nat) : Series :=
  { s with values := idx.map (fun i => s.values.getD i Value.null) }

/-- The 4-tuple returned by `train_test_split`. -/
structure SplitResult where
  XTrain : Table
  XTest : Table
  yTrain : Series
  yTest : Series
deriving DecidableEq

/-- sklearn `train_test_split(X, y, test_size=0.2, random_state=rs)`: checks
that X and y have consistent lengths, rejects an empty train set, then slices
X and y by the same shuffled train/test index lists.  `ambient` is the global
numpy RNG state, consulted only when `random_state` is None. -/
def trainTestSplit (ambient : Nat) (randomState : Option Nat) (X : Table)
    (y : Series) : Except String SplitResult :=
  if y.values.length != X.nr then
    .error "Found input variables with inconsistent numbers of samples"
  else if X.nr - nTestOf X.nr == 0 then
    .error "With test_size=0.2 the resulting train set will be empty"
  else
    .ok ⟨X.takeRows (splitIndices (randomState.getD ambient) X.nr).1,
         X.takeRows (splitIndices (randomState.getD ambient) X.nr).2,
         y.takeRows (splitIndices (randomState.getD ambient) X.nr).1,
         y.takeRows (splitIndices (randomState.getD ambient) X.nr).2⟩

/-- Body of `DataDivideStrategy.handle_data` inside its try block:
`X = data.drop(["review_score"], axis=1)`, `y = data["review_score"]`, then
`train_test_split(X, y, test_size=0.2, random_state=42)`.  The argument may be
Python None (then `.drop` raises an AttributeError). -/
def divideBody (ambient : Nat) : Option Table → Except String SplitResult
  | Option.none => .error "AttributeError: NoneType object has no attribute drop"
  | some t =>
    match t.drop ["review_score"] with
    | .error e => .error e
    | .ok X =>
      match t.get? "review_score" with
      | Option.none => .error "KeyError: review_score"
      | some c => trainTestSplit ambient (some 42) X ⟨"review_score", c.values⟩

/-- `DataDivideStrategy.handle_data`: runs the body; on an exception it logs
the error and re-raises the same exception. -/
def DataDivideStrategy.handle_data (ambient : Nat) (data : Option Table) :
    Except String SplitResult × List String :=
  match divideBody ambient data with
  | .ok r => (.ok r, [])
  | .error e => (.error e, ["Error in dividing data: " ++ e])

/-- The two concrete strategies of the source. -/
inductive DataStrategy where
  | preprocess
  | divide
deriving DecidableEq

/-- A Python value a strategy call can produce: a DataFrame, a split 4-tuple,
or None. -/
inductive PyValue where
  | table (t : Table)
  | split (r : SplitResult)
  | pyNone
deriving DecidableEq

/-- The `DataCleaning` context: the data (possibly Python None) and the
strategy chosen at construction. -/
structure DataCleaning where
  data : Option Table
  strategy : DataStrategy
deriving DecidableEq

/-- `DataCleaning.handle_data`: delegates to the strategy; an exception coming
back from the strategy is logged and re-raised.  The preprocessing strategy
never raises (it swallows its errors and yields None), so that branch always
succeeds. -/
def DataCleaning.handle_data (ambient : Nat) (dc : DataCleaning) :
    Except String PyValue × List String :=
  match dc.strategy with
  | .preprocess =>
    match DataPreProcessStrategy.handle_data dc.data with
    | (some t, log) => (.ok (.table t), log)
    | (Option.none, log) => (.ok .pyNone, log)
  | .divide =>
    match DataDivideStrategy.handle_data ambient dc.data with
    | (.ok r, log) => (.ok (.split r), log)
    | (.error e, log) => (.error e, log ++ ["Error in handling data: " ++ e])

/-- `clean_df` of src/steps/clean_data.py: preprocess, then divide, re-raising
any exception; on success it logs completion and falls off the end of the
function body, so the Python function returns None despite its annotated
4-tuple return type. -/
def clean_df (ambient : Nat) (df : Table) : Except String PyValue × List String :=
  match DataCleaning.handle_data ambient ⟨some df, .preprocess⟩ with
  | (.error e, log1) => (.error e, log1 ++ ["Error in cleaning data: " ++ e])
  | (.ok v, log1) =>
    match DataCleaning.handle_data ambient
        ⟨(match v with | .table t => some t | _ => Option.none), .divide⟩ with
    | (.error e, log2) => (.error e, log1 ++ log2 ++ ["Error in cleaning data: " ++ e])
    | (.ok _, log2) => (.ok .pyNone, log1 ++ log2 ++ ["Data cleaning completed"])

/-- The spec's formula for the number of test rows, `floor(n * 0.2)`.
Modelled from the spec: the rounding rule it claims for the split size,
written as an exact rational floor (`floor(2n/10)` over the naturals). -/
def specFloorTestRows (n : Nat) : Nat := 2 * n / 10

/-- Extract the split of a successful division; a dummy empty result
otherwise. -/
def getSplit : Except String SplitResult → SplitResult
  | .ok r => r
  | .error _ => ⟨⟨0, []⟩, ⟨0, []⟩, ⟨"", []⟩, ⟨"", []⟩⟩

/-- Number of test-set rows of a division result, when it succeeded. -/
def testRowsOf : Except String SplitResult → Option Nat
  | .ok r => some r.XTest.nr
  | .error _ => Option.none

/-- Decidable equality for results, so concrete runs can be checked by
`decide`. -/
instance exceptDecEq {ε α : Type} [DecidableEq ε] [DecidableEq α] :
    DecidableEq (Except ε α) := fun x y =>
  match x, y with
  | .ok a, .ok b =>
    if h : a = b then .isTrue (by rw [h])
    else .isFalse (fun he => h (Except.ok.inj he))
  | .error a, .error b =>
    if h : a = b then .isTrue (by rw [h])
    else .isFalse (fun he => h (Except.error.inj he))
  | .ok _, .error _ => .isFalse (fun he => Except.noConfusion he)
  | .error _, .ok _ => .isFalse (fun he => Except.noConfusion he)

/-- True exactly when a context call returned without raising. -/
def isOkResult : Except String PyValue → Bool
  | .ok _ => true
  | .error _ => false

/-- The returned Python value of a non-raising call, as an Option. -/
def pyOkOf (x : Except String PyValue × List String) : Option PyValue :=
  match x.1 with
  | .ok v => some v
  | .error _ => Option.none

/-- The table produced by a preprocessing call that returned one. -/
def preOutOf (x : Option Table × List String) : Table :=
  match x.1 with
  | some t => t
  | Option.none => ⟨0, []⟩

-- Concrete tables used by the witnesses and counterexamples.

/-- The label column of the 3-row table below. -/
def c3 : Column := ⟨"review_score", Dtype.numeric,
  [Value.num 5, Value.num 4, Value.num 3]⟩

/-- A 3-row table with one feature column and the label column. -/
def t3 : Table :=
  ⟨3, [⟨"feat", Dtype.numeric, [Value.num 10, Value.num 20, Value.num 30]⟩, c3]⟩

/-- The label column of the 100-row table below. -/
def c100 : Column := ⟨"review_score", Dtype.numeric,
  (List.range 100).map (fun i => Value.num i)⟩

/-- A 100-row table with one feature column and the label column. -/
def t100 : Table :=
  ⟨100, [⟨"feat", Dtype.numeric, (List.range 100).map (fun i => Value.num i)⟩,
         c100]⟩

/-- A 2-row table carrying every column the full pipeline needs. -/
def tFull : Table :=
  ⟨2, [⟨"order_approved_at", Dtype.object, [Value.str "a", Value.str "b"]⟩,
       ⟨"order_delivered_carrier_date", Dtype.object, [Value.str "a", Value.str "b"]⟩,
       ⟨"order_delivered_customer_date", Dtype.object, [Value.str "a", Value.str "b"]⟩,
       ⟨"order_estimated_delivery_date", Dtype.object, [Value.str "a", Value.str "b"]⟩,
       ⟨"order_purchase_timestamp", Dtype.object, [Value.str "a", Value.str "b"]⟩,
       ⟨"product_weight_g", Dtype.numeric, [Value.num 1, Value.null]⟩,
       ⟨"product_length_cm", Dtype.numeric, [Value.num 2, Value.num 3]⟩,
       ⟨"product_height_cm", Dtype.numeric, [Value.null, Value.num 7]⟩,
       ⟨"product_width_cm", Dtype.numeric, [Value.num 4, Value.num 6]⟩,
       ⟨"review_comment_message", Dtype.object, [Value.null, Value.str "ok"]⟩,
       ⟨"custopmer_zip_code_prefix", Dtype.numeric, [Value.num 11, Value.num 12]⟩,
       ⟨"order_item_id", Dtype.numeric, [Value.num 1, Value.num 2]⟩,
       ⟨"review_score", Dtype.numeric, [Value.num 5, Value.num 4]⟩]⟩

/-- A table lacking the `review_score` column. -/
def tNoLabel : Table :=
  ⟨2, [⟨"feat", Dtype.numeric, [Value.num 1, Value.num 2]⟩]⟩

/-- A 4-row table whose product-weight column is the spec's median example
`[1, 2, null, 4]`, next to an all-null product-length column. -/
def tMed : Table :=
  ⟨4, [⟨"product_weight_g", Dtype.numeric,
        [Value.num 1, Value.num 2, Value.null, Value.num 4]⟩,
       ⟨"product_length_cm", Dtype.numeric,
        [Value.null, Value.null, Value.null, Value.null]⟩]⟩

/-- The result of filling the median example column of `tMed`: the null became
the median 2 of the non-null values, the all-null column is untouched. -/
def tMedOut : Table :=
  ⟨4, [⟨"product_weight_g", Dtype.numeric,
        [Value.num 1, Value.num 2, Value.num 2, Value.num 4]⟩,
       ⟨"product_length_cm", Dtype.numeric,
        [Value.null, Value.null, Value.null, Value.null]⟩]⟩

/-- The preprocessing output for `tFull`: the four (imputed) product columns
and the label column survive. -/
def outFull : Table :=
  ⟨2, [⟨"product_weight_g", Dtype.numeric, [Value.num 1, Value.num 1]⟩,
       ⟨"product_length_cm", Dtype.numeric, [Value.num 2, Value.num 3]⟩,
       ⟨"product_height_cm", Dtype.numeric, [Value.num 7, Value.num 7]⟩,
       ⟨"product_width_cm", Dtype.numeric, [Value.num 4, Value.num 6]⟩,
       ⟨"review_score", Dtype.numeric, [Value.num 5, Value.num 4]⟩]⟩

/-- The empty table: zero rows, no columns. -/
def tEmpty : Table := ⟨0, []⟩

-- Helper lemmas (shared; none of them is a claim theorem).

theorem extract_perm : ∀ (l : List Nat) (j : Nat), j < l.length →
    l.Perm (l.getD j 0 :: l.eraseIdx j)
  | [], j, h => by simp at h
  | a :: t, 0, _ => by simp
  | a :: t, j + 1, h => by
    have ih := extract_perm t j (by simpa using h)
    have h1 : (a :: t).Perm (a :: (t.getD j 0 :: t.eraseIdx j)) := ih.cons a
    refine h1.trans ?_
    simpa using List.Perm.swap (t.getD j 0) a (t.eraseIdx j)

theorem shuffleAux_perm : ∀ (fuel s : Nat) (l : List Nat), l.length ≤ fuel →
    (shuffleAux fuel s l).Perm l := by
  intro fuel
  induction fuel with
  | zero =>
    intro s l h
    have : l = [] := List.eq_nil_of_length_eq_zero (Nat.le_zero.mp h)
    subst this
    simp [shuffleAux]
  | succ n ih =>
    intro s l h
    match l with
    | [] => simp [shuffleAux]
    | a :: rest =>
      have hlt : s % (a :: rest).length < (a :: rest).length :=
        Nat.mod_lt _ (by simp)
      have hlen : ((a :: rest).eraseIdx (s % (a :: rest).length)).length ≤ n := by
        rw [List.length_eraseIdx_of_lt hlt]
        simpa using Nat.le_of_succ_le_succ (by simpa using h)
      have hrec := ih (lcgNext s) ((a :: rest).eraseIdx (s % (a :: rest).length)) hlen
      have hcons := hrec.cons ((a :: rest).getD (s % (a :: rest).length) 0)
      exact hcons.trans (extract_perm _ _ hlt).symm

theorem shuffleList_perm (s : Nat) (l : List Nat) : (shuffleList s l).Perm l :=
  shuffleAux_perm l.length s l le_rfl

theorem permutation_perm (seed n : Nat) :
    (permutation seed n).Perm (List.range n) := shuffleList_perm seed (List.range n)

theorem permutation_length (seed n : Nat) : (permutation seed n).length = n := by
  simpa using (permutation_perm seed n).length_eq

theorem permutation_nodup (seed n : Nat) : (permutation seed n).Nodup :=
  (permutation_perm seed n).nodup_iff.mpr (List.nodup_range n)

theorem nTestOf_le (n : Nat) : nTestOf n ≤ n := by
  unfold nTestOf
  omega

theorem splitIndices_test_length (seed n : Nat) :
    (splitIndices seed n).2.length = nTestOf n := by
  simp [splitIndices, permutation_length, Nat.min_eq_left (nTestOf_le n)]

theorem splitIndices_train_length (seed n : Nat) :
    (splitIndices seed n).1.length = n - nTestOf n := by
  simp [splitIndices, permutation_length]

theorem splitIndices_train_eq_drop (seed n : Nat) :
    (splitIndices seed n).1 = (permutation seed n).drop (nTestOf n) := by
  unfold splitIndices
  exact List.take_of_length_le (by simp [permutation_length])

theorem splitIndices_append_perm (seed n : Nat) :
    ((splitIndices seed n).2 ++ (splitIndices seed n).1).Perm (List.range n) := by
  have h := splitIndices_train_eq_drop seed n
  unfold splitIndices at h ⊢
  rw [h]
  rw [List.take_append_drop]
  exact permutation_perm seed n

theorem splitIndices_disjoint (seed n : Nat) :
    List.Disjoint (splitIndices seed n).1 (splitIndices seed n).2 := by
  have hnd : ((splitIndices seed n).2 ++ (splitIndices seed n).1).Nodup :=
    (splitIndices_append_perm seed n).nodup_iff.mpr (List.nodup_range n)
  have := (List.nodup_append.mp hnd).2.2
  exact this.symm

theorem fillMedCol_name (nm : String) (c : Column) :
    (fillMedCol nm c).name = c.name := by
  unfold fillMedCol
  split
  · split <;> rfl
  · rfl

theorem fillMedCol_dtype (nm : String) (c : Column) :
    (fillMedCol nm c).dtype = c.dtype := by
  unfold fillMedCol
  split
  · split <;> rfl
  · rfl

theorem fillMedCol_length (nm : String) (c : Column) :
    (fillMedCol nm c).values.length = c.values.length := by
  unfold fillMedCol
  split
  · split
    · rfl
    · simp
  · rfl

theorem fillStrCol_name (nm s : String) (c : Column) :
    (fillStrCol nm s c).name = c.name := by
  unfold fillStrCol
  split <;> rfl

theorem fillStrCol_dtype (nm s : String) (c : Column) :
    (fillStrCol nm s c).dtype = c.dtype := by
  unfold fillStrCol
  split <;> rfl

theorem fillStrCol_length (nm s : String) (c : Column) :
    (fillStrCol nm s c).values.length = c.values.length := by
  unfold fillStrCol
  split
  · simp
  · rfl

theorem prepFill_name (c : Column) : (prepFill c).name = c.name := by
  unfold prepFill
  rw [fillStrCol_name, fillMedCol_name, fillMedCol_name, fillMedCol_name,
      fillMedCol_name]

theorem prepFill_dtype (c : Column) : (prepFill c).dtype = c.dtype := by
  unfold prepFill
  rw [fillStrCol_dtype, fillMedCol_dtype, fillMedCol_dtype, fillMedCol_dtype,
      fillMedCol_dtype]

theorem prepFill_length (c : Column) :
    (prepFill c).values.length = c.values.length := by
  unfold prepFill
  rw [fillStrCol_length, fillMedCol_length, fillMedCol_length,
      fillMedCol_length, fillMedCol_length]

theorem drop_ok {t d : Table} {labels : List String}
    (h : t.drop labels = .ok d) : d = dropCols t labels := by
  unfold Table.drop at h
  split at h
  · exact (Except.ok.inj h).symm
  · exact Except.noConfusion h

theorem fillnaMedian_ok {t d : Table} {nm : String}
    (h : t.fillnaMedian nm = .ok d) : d = ⟨t.nr, t.cols.map (fillMedCol nm)⟩ := by
  unfold Table.fillnaMedian at h
  split at h
  · exact Except.noConfusion h
  · exact (Except.ok.inj h).symm

theorem fillnaStr_ok {t d : Table} {nm s : String}
    (h : t.fillnaStr nm s = .ok d) : d = ⟨t.nr, t.cols.map (fillStrCol nm s)⟩ := by
  unfold Table.fillnaStr at h
  split at h
  · exact Except.noConfusion h
  · exact (Except.ok.inj h).symm

theorem preprocessBody_ok {t out : Table} (h : preprocessBody t = .ok out) :
    out.nr = t.nr ∧
    out.cols =
      ((((((((t.cols.filter (fun c => !(timestampCols.contains c.name))).map
          (fillMedCol "product_weight_g")).map
          (fillMedCol "product_length_cm")).map
          (fillMedCol "product_height_cm")).map
          (fillMedCol "product_width_cm")).map
          (fillStrCol "review_comment_message" "No Review")).filter
          (fun c => c.dtype == Dtype.numeric)).filter
          (fun c => !(colsToDrop.contains c.name))) := by
  unfold preprocessBody at h
  split at h
  · exact Except.noConfusion h
  next d1 h1 =>
  split at h
  · exact Except.noConfusion h
  next d2 h2 =>
  split at h
  · exact Except.noConfusion h
  next d3 h3 =>
  split at h
  · exact Except.noConfusion h
  next d4 h4 =>
  split at h
  · exact Except.noConfusion h
  next d5 h5 =>
  split at h
  · exact Except.noConfusion h
  next d6 h6 =>
  have e1 := drop_ok h1
  have e2 := fillnaMedian_ok h2
  have e3 := fillnaMedian_ok h3
  have e4 := fillnaMedian_ok h4
  have e5 := fillnaMedian_ok h5
  have e6 := fillnaStr_ok h6
  have e7 := drop_ok h
  subst e1 e2 e3 e4 e5 e6 e7
  exact ⟨rfl, rfl⟩

theorem contains_append (l1 l2 : List String) (x : String) :
    (l1 ++ l2).contains x = (l1.contains x || l2.contains x) := by
  induction l1 with
  | nil => simp
  | cons a t ih => simp [List.contains_cons, ih, Bool.or_assoc]

theorem preprocess_names_aux (cols : List Column) :
    ((((((((cols.filter (fun c => !(timestampCols.contains c.name))).map
        (fillMedCol "product_weight_g")).map
        (fillMedCol "product_length_cm")).map
        (fillMedCol "product_height_cm")).map
        (fillMedCol "product_width_cm")).map
        (fillStrCol "review_comment_message" "No Review")).filter
        (fun c => c.dtype == Dtype.numeric)).filter
        (fun c => !(colsToDrop.contains c.name))).map Column.name =
    (cols.filter (fun c => c.dtype == Dtype.numeric &&
        !((timestampCols ++ colsToDrop).contains c.name))).map Column.name := by
  induction cols with
  | nil => rfl
  | cons c cs ih =>
    by_cases hT : c.name ∈ timestampCols <;>
      by_cases hN : c.dtype = Dtype.numeric <;>
        by_cases hD : c.name ∈ colsToDrop <;>
          (simp [List.filter_cons, hT, hN, hD, fillMedCol_name, fillMedCol_dtype,
             fillStrCol_name, fillStrCol_dtype]; try simpa using ih)

theorem preprocess_names {t out : Table} (h : preprocessBody t = .ok out) :
    out.cols.map Column.name =
      (t.cols.filter (fun c => c.dtype == Dtype.numeric &&
        !((timestampCols ++ colsToDrop).contains c.name))).map Column.name := by
  rw [(preprocessBody_ok h).2]
  exact preprocess_names_aux t.cols

theorem preprocess_all_numeric {t out : Table} (h : preprocessBody t = .ok out) :
    ∀ c ∈ out.cols, c.dtype = Dtype.numeric := by
  intro c hc
  rw [(preprocessBody_ok h).2] at hc
  have h1 := (List.mem_filter.mp hc).1
  have h2 := (List.mem_filter.mp h1).2
  simpa using h2

theorem preprocess_no_timestamp {t out : Table} (h : preprocessBody t = .ok out) :
    ∀ s ∈ timestampCols, ¬ s ∈ out.names := by
  intro s hs hmem
  unfold Table.names at hmem
  rw [preprocess_names h] at hmem
  obtain ⟨c, hc, hname⟩ := List.mem_map.mp hmem
  have h2 := (List.mem_filter.mp hc).2
  rw [Bool.and_eq_true] at h2
  have h3 := h2.2
  rw [contains_append] at h3
  have h4 : timestampCols.contains c.name = true := by
    simp [hname]
    exact hs
  rw [h4] at h3
  simp at h3

theorem getD_map_of_lt {α β : Type} (f : α → β) (d : β) (d0 : α) :
    ∀ (l : List α) (k : Nat), k < l.length → (l.map f).getD k d = f (l.getD k d0)
  | [], _, h => absurd h (by simp)
  | a :: t, 0, _ => rfl
  | a :: t, k + 1, h => getD_map_of_lt f d d0 t k (by simpa using h)

theorem divideBody_ok {a : Nat} {t : Table} {r : SplitResult}
    (h : divideBody a (some t) = .ok r) :
    ∃ c, t.get? "review_score" = some c ∧ c.values.length = t.nr ∧
      t.nr - nTestOf t.nr ≠ 0 ∧
      r = ⟨(dropCols t ["review_score"]).takeRows (splitIndices 42 t.nr).1,
           (dropCols t ["review_score"]).takeRows (splitIndices 42 t.nr).2,
           Series.takeRows ⟨"review_score", c.values⟩ (splitIndices 42 t.nr).1,
           Series.takeRows ⟨"review_score", c.values⟩ (splitIndices 42 t.nr).2⟩ := by
  simp only [divideBody] at h
  split at h
  · exact Except.noConfusion h
  next X hX =>
    split at h
    · exact Except.noConfusion h
    next c hc =>
      have eX := drop_ok hX
      subst eX
      unfold trainTestSplit at h
      split at h
      · exact Except.noConfusion h
      next hlen =>
        split at h
        · exact Except.noConfusion h
        next hn =>
          refine ⟨c, hc, ?_, ?_, ?_⟩
          · simpa [dropCols] using hlen
          · simpa [dropCols] using hn
          · exact (Except.ok.inj h).symm

theorem divide_handle_ok_of {a : Nat} {t : Table} {c : Column}
    (hget : t.get? "review_score" = some c) (hlen : c.values.length = t.nr)
    (hn : t.nr - nTestOf t.nr ≠ 0) :
    DataDivideStrategy.handle_data a (some t) =
      (.ok ⟨(dropCols t ["review_score"]).takeRows (splitIndices 42 t.nr).1,
            (dropCols t ["review_score"]).takeRows (splitIndices 42 t.nr).2,
            Series.takeRows ⟨"review_score", c.values⟩ (splitIndices 42 t.nr).1,
            Series.takeRows ⟨"review_score", c.values⟩ (splitIndices 42 t.nr).2⟩,
       []) := by
  have hget2 : t.cols.find? (fun x => x.name == "review_score") = some c := hget
  have hmem : c ∈ t.cols := List.mem_of_find?_eq_some hget2
  have hbeq := List.find?_some hget2
  have hname : c.name = "review_score" := by simpa using hbeq
  have hhas : t.hasCol "review_score" = true := by
    simp only [Table.hasCol, Table.names]
    simp
    exact ⟨c, hmem, hname⟩
  have hdrop : t.drop ["review_score"] = .ok (dropCols t ["review_score"]) := by
    unfold Table.drop
    simp [hhas]
  have hbody : divideBody a (some t) =
      .ok ⟨(dropCols t ["review_score"]).takeRows (splitIndices 42 t.nr).1,
           (dropCols t ["review_score"]).takeRows (splitIndices 42 t.nr).2,
           Series.takeRows ⟨"review_score", c.values⟩ (splitIndices 42 t.nr).1,
           Series.takeRows ⟨"review_score", c.values⟩ (splitIndices 42 t.nr).2⟩ := by
    simp only [divideBody]
    rw [hdrop, hget]
    simp [trainTestSplit, dropCols, hlen, hn]
  unfold DataDivideStrategy.handle_data
  rw [hbody]

theorem handle_ok_body {a : Nat} {d : Option Table} {r : SplitResult}
    {log : List String}
    (h : DataDivideStrategy.handle_data a d = (.ok r, log)) :
    divideBody a d = .ok r ∧ log = [] := by
  unfold DataDivideStrategy.handle_data at h
  split at h
  next r2 hr2 =>
    obtain ⟨h1, h2⟩ := Prod.mk.inj h
    exact ⟨by rw [hr2, Except.ok.inj h1], h2.symm⟩
  next e he =>
    exact absurd (Prod.mk.inj h).1 (fun hx => Except.noConfusion hx)

/-- C1 counterexample: on the 3-row table `t3` the Splitting Policy's handle
succeeds and returns 1 test row, while the spec's claimed formula
floor(n * 0.2) demands floor(3 * 0.2) = 0 test rows. -/
theorem C1_counterexample_floor :
    t3.nr = 3 ∧
    testRowsOf (DataDivideStrategy.handle_data 0 (some t3)).1 = some 1 ∧
    specFloorTestRows 3 = 0 := by
  refine ⟨rfl, by decide, rfl⟩

/-- C1 (amended): for every table on which the Splitting Policy's handle
succeeds, the returned 4-tuple satisfies |X_test| = ceil(n * 0.2) test rows
(the ceiling, not the floor, of n * 0.2) with the remainder as train rows, and
|X_train| + |X_test| = n, |X_train| = |y_train|, |X_test| = |y_test|. -/
theorem C1_split_sizes (a : Nat) (t : Table) (r : SplitResult)
    (log : List String)
    (h : DataDivideStrategy.handle_data a (some t) = (.ok r, log)) :
    r.XTest.nr = nTestOf t.nr ∧
    r.XTrain.nr = t.nr - nTestOf t.nr ∧
    r.XTrain.nr + r.XTest.nr = t.nr ∧
    r.XTrain.nr = r.yTrain.values.length ∧
    r.XTest.nr = r.yTest.values.length := by
  obtain ⟨hb, -⟩ := handle_ok_body h
  obtain ⟨c, hc, hlen, hn, hr⟩ := divideBody_ok hb
  subst hr
  have h1 : nTestOf t.nr ≤ t.nr := nTestOf_le t.nr
  refine ⟨?_, ?_, ?_, ?_, ?_⟩
  · simp [Table.takeRows, splitIndices_test_length]
  · simp [Table.takeRows, splitIndices_train_length]
  · simp [Table.takeRows, splitIndices_test_length, splitIndices_train_length]
    omega
  · simp [Table.takeRows, Series.takeRows]
  · simp [Table.takeRows, Series.takeRows]

theorem C1_split_sizes_witness :
    (getSplit (DataDivideStrategy.handle_data 0 (some t100)).1).XTest.nr = 20 ∧
    (getSplit (DataDivideStrategy.handle_data 0 (some t100)).1).XTrain.nr = 80 := by
  have h := @divide_handle_ok_of 0 t100 c100 rfl (by decide) (by decide)
  have hs := @C1_split_sizes 0 t100 _ [] h
  rw [h]
  have e1 : nTestOf t100.nr = 20 := by decide
  have e2 : t100.nr - nTestOf t100.nr = 80 := by decide
  constructor
  · simpa [getSplit, e1] using hs.1
  · simpa [getSplit, e2] using hs.2.1

/-- C7: for every table on which the Splitting Policy's handle succeeds, the
train and test row-index lists are disjoint and together they are a
permutation of the full original row-index set 0..n-1; the returned feature
tables have exactly as many rows as those index lists.  (The instance of a
100-row table with seed 42, |X_test| = 20 and |X_train| = 80, is checked in
the witness.) -/
theorem C7_partition (a : Nat) (t : Table) (r : SplitResult)
    (log : List String)
    (h : DataDivideStrategy.handle_data a (some t) = (.ok r, log)) :
    List.Disjoint (splitIndices 42 t.nr).1 (splitIndices 42 t.nr).2 ∧
    ((splitIndices 42 t.nr).2 ++ (splitIndices 42 t.nr).1).Perm
      (List.range t.nr) ∧
    r.XTest.nr = (splitIndices 42 t.nr).2.length ∧
    r.XTrain.nr = (splitIndices 42 t.nr).1.length := by
  obtain ⟨hb, -⟩ := handle_ok_body h
  obtain ⟨c, hc, hlen, hn, hr⟩ := divideBody_ok hb
  subst hr
  exact ⟨splitIndices_disjoint 42 t.nr, splitIndices_append_perm 42 t.nr,
         rfl, rfl⟩

theorem C7_partition_witness :
    List.Disjoint (splitIndices 42 t100.nr).1 (splitIndices 42 t100.nr).2 ∧
    ((splitIndices 42 t100.nr).2 ++ (splitIndices 42 t100.nr).1).Perm
      (List.range t100.nr) ∧
    (splitIndices 42 t100.nr).2.length = 20 ∧
    (splitIndices 42 t100.nr).1.length = 80 := by
  have h := @divide_handle_ok_of 0 t100 c100 rfl (by decide) (by decide)
  have hs := @C7_partition 0 t100 _ [] h
  refine ⟨hs.1, hs.2.1, ?_, ?_⟩
  · rw [splitIndices_test_length]
    decide
  · rw [splitIndices_train_length]
    decide

/-- C8: for every table on which the Splitting Policy's handle succeeds,
features and labels are partitioned by the same row-index partition: X_test
and X_train are the feature table sliced by exactly the test and train index
lists, and for every position k of the test (resp. train) index list the
label value in y_test (resp. y_train) equals the review_score value of the
selected original row. -/
theorem C8_alignment (a : Nat) (t : Table) (r : SplitResult)
    (log : List String) (c : Column)
    (h : DataDivideStrategy.handle_data a (some t) = (.ok r, log))
    (hc : t.get? "review_score" = some c) :
    r.XTest = (dropCols t ["review_score"]).takeRows (splitIndices 42 t.nr).2 ∧
    r.XTrain = (dropCols t ["review_score"]).takeRows (splitIndices 42 t.nr).1 ∧
    (∀ k, k < (splitIndices 42 t.nr).2.length →
      r.yTest.values.getD k Value.null =
        c.values.getD ((splitIndices 42 t.nr).2.getD k 0) Value.null) ∧
    (∀ k, k < (splitIndices 42 t.nr).1.length →
      r.yTrain.values.getD k Value.null =
        c.values.getD ((splitIndices 42 t.nr).1.getD k 0) Value.null) := by
  obtain ⟨hb, -⟩ := handle_ok_body h
  obtain ⟨c2, hc2, hlen, hn, hr⟩ := divideBody_ok hb
  rw [hc] at hc2
  have hcc : c2 = c := (Option.some.inj hc2).symm
  subst hcc
  subst hr
  refine ⟨rfl, rfl, ?_, ?_⟩
  · intro k hk
    exact getD_map_of_lt (fun i => c2.values.getD i Value.null) Value.null 0
      (splitIndices 42 t.nr).2 k hk
  · intro k hk
    exact getD_map_of_lt (fun i => c2.values.getD i Value.null) Value.null 0
      (splitIndices 42 t.nr).1 k hk

theorem C8_alignment_witness :
    (getSplit (DataDivideStrategy.handle_data 0 (some t3)).1).yTest.values.getD
        0 Value.null =
      c3.values.getD ((splitIndices 42 t3.nr).2.getD 0 0) Value.null := by
  have h := @divide_handle_ok_of 0 t3 c3 rfl (by decide) (by decide)
  have hs := @C8_alignment 0 t3 _ [] c3 h rfl
  have hk : 0 < (splitIndices 42 t3.nr).2.length := by
    rw [splitIndices_test_length]
    decide
  have := hs.2.2.1 0 hk
  rw [h]
  simpa [getSplit] using this

/-- C9: for every table lacking the column review_score, the Splitting
Policy's handle fails with an error naming the missing column (and logs it);
no result tuple is produced. -/
theorem C9_missing_label (a : Nat) (t : Table)
    (h : t.hasCol "review_score" = false) :
    DataDivideStrategy.handle_data a (some t) =
      (.error "review_score not found in axis",
       ["Error in dividing data: review_score not found in axis"]) := by
  have hdrop : t.drop ["review_score"] =
      .error "review_score not found in axis" := by
    unfold Table.drop
    simp [h]
    rfl
  unfold DataDivideStrategy.handle_data
  simp only [divideBody]
  rw [hdrop]
  rfl

theorem C9_missing_label_witness :
    DataDivideStrategy.handle_data 0 (some tNoLabel) =
      (.error "review_score not found in axis",
       ["Error in dividing data: review_score not found in axis"]) :=
  C9_missing_label 0 tNoLabel (by decide)

/-- C10: the Splitting Policy is deterministic: because the pseudo-random
shuffle is seeded with the constant 42, the result of its handle does not
depend on the ambient global RNG state, so two runs on the same input produce
identical 4-tuples. -/
theorem C10_deterministic (a1 a2 : Nat) (d : Option Table) :
    DataDivideStrategy.handle_data a1 d = DataDivideStrategy.handle_data a2 d := by
  cases d with
  | none => rfl
  | some t => rfl

/-- C2: error propagation is asymmetric.  When the preprocessing body raises,
DataPreProcessStrategy.handle_data logs the error and returns Python None
instead of raising (its result is always a non-exception).  When the dividing
body raises, DataDivideStrategy.handle_data logs and re-raises the same
error; when the strategy delegated to by DataCleaning.handle_data raises, the
context logs and re-raises it as well, while a context holding the
preprocessing strategy never raises. -/
theorem C2_error_propagation :
    (∀ (d : Option Table) (e : String), preprocessBodyPy d = .error e →
      DataPreProcessStrategy.handle_data d =
        (Option.none, ["Error in preprocessing data: " ++ e])) ∧
    (∀ (a : Nat) (d : Option Table) (e : String), divideBody a d = .error e →
      DataDivideStrategy.handle_data a d =
        (.error e, ["Error in dividing data: " ++ e])) ∧
    (∀ (a : Nat) (dc : DataCleaning), dc.strategy = DataStrategy.preprocess →
      isOkResult (DataCleaning.handle_data a dc).1 = true) ∧
    (∀ (a : Nat) (dc : DataCleaning) (e : String),
      dc.strategy = DataStrategy.divide → divideBody a dc.data = .error e →
      DataCleaning.handle_data a dc =
        (.error e, ["Error in dividing data: " ++ e,
                    "Error in handling data: " ++ e])) := by
  refine ⟨?_, ?_, ?_, ?_⟩
  · intro d e h
    unfold DataPreProcessStrategy.handle_data
    rw [h]
  · intro a d e h
    unfold DataDivideStrategy.handle_data
    rw [h]
  · intro a dc hs
    obtain ⟨d, s⟩ := dc
    cases hs
    unfold DataCleaning.handle_data
    rcases hp : DataPreProcessStrategy.handle_data d with ⟨o, log⟩
    cases o <;> simp [isOkResult]
  · intro a dc e hs h
    obtain ⟨d, s⟩ := dc
    cases hs
    unfold DataCleaning.handle_data DataDivideStrategy.handle_data
    rw [h]
    rfl

theorem C2_error_propagation_witness :
    DataPreProcessStrategy.handle_data (some tEmpty) =
      (Option.none,
       ["Error in preprocessing data: order_approved_at, order_delivered_carrier_date, order_delivered_customer_date, order_estimated_delivery_date, order_purchase_timestamp not found in axis"]) ∧
    DataDivideStrategy.handle_data 0 (some tNoLabel) =
      (.error "review_score not found in axis",
       ["Error in dividing data: review_score not found in axis"]) ∧
    isOkResult (DataCleaning.handle_data 0
      ⟨some tEmpty, DataStrategy.preprocess⟩).1 = true ∧
    DataCleaning.handle_data 0 ⟨some tNoLabel, DataStrategy.divide⟩ =
      (.error "review_score not found in axis",
       ["Error in dividing data: review_score not found in axis",
        "Error in handling data: review_score not found in axis"]) := by
  refine ⟨C2_error_propagation.1 (some tEmpty) _ rfl,
          C2_error_propagation.2.1 0 (some tNoLabel) _ rfl,
          C2_error_propagation.2.2.1 0 ⟨some tEmpty, DataStrategy.preprocess⟩ rfl,
          C2_error_propagation.2.2.2 0 ⟨some tNoLabel, DataStrategy.divide⟩ _ rfl rfl⟩

/-- C3: whenever clean_df does not raise, it returns Python None (its body
computes the split but has no return statement), despite the annotated
4-tuple return type. -/
theorem C3_clean_df_returns_none (a : Nat) (df : Table) (v : PyValue)
    (log : List String)
    (h : clean_df a df = (.ok v, log)) : v = PyValue.pyNone := by
  unfold clean_df at h
  split at h
  · exact absurd (Prod.mk.inj h).1 (fun hx => Except.noConfusion hx)
  next v1 log1 hm1 =>
    split at h
    · exact absurd (Prod.mk.inj h).1 (fun hx => Except.noConfusion hx)
    next v2 log2 hm2 =>
      exact (Except.ok.inj (Prod.mk.inj h).1).symm

theorem C3_clean_df_returns_none_witness :
    clean_df 0 tFull = (Except.ok PyValue.pyNone, ["Data cleaning completed"]) ∧
    PyValue.pyNone = PyValue.pyNone := by
  have h : clean_df 0 tFull =
      (Except.ok PyValue.pyNone, ["Data cleaning completed"]) := by decide
  exact ⟨h, C3_clean_df_returns_none 0 tFull PyValue.pyNone
    ["Data cleaning completed"] h⟩

theorem preprocess_handle_ok {t out : Table} {log : List String}
    (h : DataPreProcessStrategy.handle_data (some t) = (some out, log)) :
    preprocessBody t = .ok out := by
  unfold DataPreProcessStrategy.handle_data preprocessBodyPy at h
  split at h
  next t2 h2 =>
    have h2b : preprocessBody t = Except.ok t2 := h2
    rw [h2b]
    exact congrArg Except.ok (Option.some.inj (Prod.mk.inj h).1)
  next e h2 =>
    exact absurd (Prod.mk.inj h).1 (fun hx => Option.noConfusion hx)

/-- C4: for every table on which the Preprocessing Policy's handle succeeds
with a table, every column of the output has numeric dtype, the output column
list is exactly the numeric columns of the input minus the explicitly dropped
columns (the five timestamps and the two late drops), and the output row
count equals the input row count. -/
theorem C4_preprocess_output (t out : Table) (log : List String)
    (h : DataPreProcessStrategy.handle_data (some t) = (some out, log)) :
    (∀ c ∈ out.cols, c.dtype = Dtype.numeric) ∧
    out.cols.map Column.name =
      (t.cols.filter (fun c => c.dtype == Dtype.numeric &&
        !((timestampCols ++ colsToDrop).contains c.name))).map Column.name ∧
    out.nr = t.nr := by
  have hb := preprocess_handle_ok h
  exact ⟨preprocess_all_numeric hb, preprocess_names hb,
         (preprocessBody_ok hb).1⟩

theorem C4_preprocess_output_witness :
    (∀ c ∈ (preOutOf (DataPreProcessStrategy.handle_data (some tFull))).cols,
      c.dtype = Dtype.numeric) ∧
    (preOutOf (DataPreProcessStrategy.handle_data (some tFull))).nr =
      tFull.nr := by
  have h : DataPreProcessStrategy.handle_data (some tFull) = (some outFull, []) := by
    decide
  have hc := C4_preprocess_output tFull outFull [] h
  rw [h]
  exact ⟨hc.1, hc.2.2⟩

/-- C5: for every input table containing the five timestamp columns, the table
returned by a successful run of the Preprocessing Policy's handle contains
none of those five column names. -/
theorem C5_no_timestamps (t out : Table) (log : List String)
    (_hin : ∀ s ∈ timestampCols, s ∈ t.names)
    (h : DataPreProcessStrategy.handle_data (some t) = (some out, log)) :
    ∀ s ∈ timestampCols, ¬ s ∈ out.names :=
  preprocess_no_timestamp (preprocess_handle_ok h)

theorem C5_no_timestamps_witness :
    ¬ "order_purchase_timestamp" ∈
      (preOutOf (DataPreProcessStrategy.handle_data (some tFull))).names := by
  have h : DataPreProcessStrategy.handle_data (some tFull) = (some outFull, []) := by
    decide
  have hc := C5_no_timestamps tFull outFull [] (by decide) h
  rw [h]
  exact hc "order_purchase_timestamp" (by decide)

/-- C6: the median imputation used by the Preprocessing Policy on each of the
four product columns replaces every missing value of the named column with
the median of that column's non-missing values at the time of imputation,
and leaves the column unchanged when it has zero non-missing values (NaN
median); on the spec's example [1, 2, null, 4] the median of the non-null
values is 2 and the filled column is [1, 2, 2, 4]. -/
theorem C6_median_imputation :
    (∀ (t t2 : Table) (nm : String) (c : Column) (m : ℚ),
      nm ∈ productCols →
      t.fillnaMedian nm = .ok t2 →
      t.get? nm = some c →
      (seriesMedian c.values = some m →
        t2.get? nm =
          some { c with values := c.values.map (fillValue (Value.num m)) }) ∧
      (seriesMedian c.values = Option.none → t2.get? nm = some c)) ∧
    seriesMedian [Value.num 1, Value.num 2, Value.null, Value.num 4] =
      some 2 ∧
    [Value.num 1, Value.num 2, Value.null, Value.num 4].map
        (fillValue (Value.num 2)) =
      [Value.num 1, Value.num 2, Value.num 2, Value.num 4] := by
  refine ⟨?_, by decide, by decide⟩
  intro t t2 nm c m hnm h hc
  have e2 := fillnaMedian_ok h
  subst e2
  have hc2 : t.cols.find? (fun x => x.name == nm) = some c := hc
  have hcname := List.find?_some hc2
  have hfind : Table.get? ⟨t.nr, t.cols.map (fillMedCol nm)⟩ nm =
      (t.cols.find? ((fun x => x.name == nm) ∘ fillMedCol nm)).map
        (fillMedCol nm) := by
    unfold Table.get?
    exact List.find?_map (fillMedCol nm) t.cols
  have hpred : ((fun x => x.name == nm) ∘ fillMedCol nm) =
      (fun x => x.name == nm) := by
    funext x
    simp [Function.comp, fillMedCol_name]
  rw [hpred, hc2] at hfind
  constructor
  · intro hm
    rw [hfind]
    rw [Option.map_some']
    unfold fillMedCol
    rw [hcname, hm]
    rfl
  · intro hm
    rw [hfind]
    rw [Option.map_some']
    unfold fillMedCol
    rw [hcname, hm]
    rfl

theorem C6_median_imputation_witness :
    tMedOut.get? "product_weight_g" =
      some ⟨"product_weight_g", Dtype.numeric,
            [Value.num 1, Value.num 2, Value.num 2, Value.num 4]⟩ ∧
    tMed.get? "product_length_cm" =
      some ⟨"product_length_cm", Dtype.numeric,
            [Value.null, Value.null, Value.null, Value.null]⟩ := by
  have h1 := (C6_median_imputation.1 tMed tMedOut "product_weight_g"
      ⟨"product_weight_g", Dtype.numeric,
       [Value.num 1, Value.num 2, Value.null, Value.num 4]⟩ 2
      (by decide) (by decide) rfl).1 (by decide)
  have h2 := (C6_median_imputation.1 tMed tMed "product_length_cm"
      ⟨"product_length_cm", Dtype.numeric,
       [Value.null, Value.null, Value.null, Value.null]⟩ 0
      (by decide) (by decide) rfl).2 (by decide)
  constructor
  · rw [h1]
    decide
  · rw [h2]
